import Mathlib

/-!
Verification of the ByteTheNet speed-test application.

The development shallowly embeds the wire codec (`app/common/packet_structs.py`),
the server's TCP and UDP transfer loops (`app/server/server.py`) and the
client's TCP and UDP receive loops (`app/client/client.py`).  Byte strings are
modelled as `List Nat` (each element one byte), Python `struct` packing as
big-endian byte serialisation that fails (`none`) when a field value is out of
range for its declared width, and `struct.unpack` as a decoder that fails when
the buffer length does not match the format exactly.  Python integers that can
be negative (user input, parsed ASCII sizes) are modelled as `Int`; values that
originate from unsigned wire fields are `Nat`.  Statistics computed with float
division are modelled with exact rational arithmetic (`ℚ`).
-/

namespace ByteTheNet

/-- Protocol constants, the defaults of `app/common/config.py`. -/
def MAGIC_COOKIE : Nat := 0xabcddcba

/-- Offer message type code. -/
def MSG_TYPE_OFFER : Nat := 0x2

/-- Request message type code. -/
def MSG_TYPE_REQUEST : Nat := 0x3

/-- Payload message type code. -/
def MSG_TYPE_PAYLOAD : Nat := 0x4

/-- Big-endian serialisation of `v` into `w` bytes (the value is taken
modulo `256 ^ w`, most significant byte first), as `struct.pack` does for
an in-range value. -/
def beBytes : Nat → Nat → List Nat
  | 0, _ => []
  | w + 1, v => beBytes w (v / 256) ++ [v % 256]

/-- Big-endian value of a byte list, as `struct.unpack` reads a field. -/
def beVal (bs : List Nat) : Nat := bs.foldl (fun a b => a * 256 + b) 0

/-- Embedding of `pack_offer_message`: `struct.pack('!IBHH', MAGIC_COOKIE,
MSG_TYPE_OFFER, udp_port, tcp_port)`; `struct.error` (here `none`) when a
port does not fit its 2-byte width. -/
def pack_offer_message (udp_port tcp_port : Nat) : Option (List Nat) :=
  if udp_port < 2 ^ 16 ∧ tcp_port < 2 ^ 16 then
    some (beBytes 4 MAGIC_COOKIE ++ (beBytes 1 MSG_TYPE_OFFER ++
          (beBytes 2 udp_port ++ beBytes 2 tcp_port)))
  else none

/-- Embedding of `unpack_offer_message`: `struct.unpack('!IBHH', data)`,
which requires the buffer to be exactly 9 bytes. -/
def unpack_offer_message (data : List Nat) : Option (Nat × Nat × Nat × Nat) :=
  if data.length = 9 then
    some (beVal (data.take 4), beVal ((data.drop 4).take 1),
          beVal ((data.drop 5).take 2), beVal ((data.drop 7).take 2))
  else none

/-- Embedding of `pack_request_message`: `struct.pack('!IBQ', MAGIC_COOKIE,
MSG_TYPE_REQUEST, file_size)`.  The file size is a Python `int` (possibly
negative, it comes from user input); `struct.error` (here `none`) exactly
when it is not representable as a u64. -/
def pack_request_message (file_size : Int) : Option (List Nat) :=
  if 0 ≤ file_size ∧ file_size < 2 ^ 64 then
    some (beBytes 4 MAGIC_COOKIE ++ (beBytes 1 MSG_TYPE_REQUEST ++
          beBytes 8 file_size.toNat))
  else none

/-- Embedding of `unpack_request_message`: `struct.unpack('!IBQ', data)`,
which requires the buffer to be exactly 13 bytes. -/
def unpack_request_message (data : List Nat) : Option (Nat × Nat × Nat) :=
  if data.length = 13 then
    some (beVal (data.take 4), beVal ((data.drop 4).take 1),
          beVal ((data.drop 5).take 8))
  else none

/-- Embedding of `pack_payload_message`: a 21-byte `'!IBQQ'` header followed
by the raw payload bytes. -/
def pack_payload_message (total_segments current_segment : Nat)
    (payload : List Nat) : Option (List Nat) :=
  if total_segments < 2 ^ 64 ∧ current_segment < 2 ^ 64 then
    some (beBytes 4 MAGIC_COOKIE ++ (beBytes 1 MSG_TYPE_PAYLOAD ++
          (beBytes 8 total_segments ++ (beBytes 8 current_segment ++ payload))))
  else none

/-- Embedding of `unpack_payload_message`: the buffer is split as
`data[:21]` and `data[21:]`; unpacking the header with `'!IBQQ'` requires
the slice to be exactly 21 bytes, hence the whole buffer at least 21. -/
def unpack_payload_message (data : List Nat) :
    Option (Nat × Nat × Nat × Nat × List Nat) :=
  if 21 ≤ data.length then
    some (beVal (data.take 4), beVal ((data.drop 4).take 1),
          beVal ((data.drop 5).take 8), beVal ((data.drop 13).take 8),
          data.drop 21)
  else none

lemma beBytes_length (w v : Nat) : (beBytes w v).length = w := by
  induction w generalizing v with
  | zero => simp [beBytes]
  | succ w ih => simp [beBytes, ih]

lemma beVal_append_byte (xs : List Nat) (b : Nat) :
    beVal (xs ++ [b]) = beVal xs * 256 + b := by
  simp [beVal, List.foldl_append]

lemma beVal_beBytes (w v : Nat) (h : v < 256 ^ w) :
    beVal (beBytes w v) = v := by
  induction w generalizing v with
  | zero =>
    have hv : v = 0 := by simpa using h
    simp [hv, beBytes, beVal]
  | succ w ih =>
    have h1 : v / 256 < 256 ^ w := by
      rw [Nat.div_lt_iff_lt_mul (by norm_num)]
      calc v < 256 ^ (w + 1) := h
        _ = 256 ^ w * 256 := by ring
    rw [beBytes, beVal_append_byte, ih _ h1]
    omega

lemma take_of_append {xs ys : List Nat} {n : Nat} (h : xs.length = n) :
    (xs ++ ys).take n = xs := by
  subst h; exact List.take_left xs ys

lemma drop_of_append {xs ys : List Nat} {n : Nat} (h : xs.length = n) :
    (xs ++ ys).drop n = ys := by
  subst h; exact List.drop_left xs ys

lemma take_of_length {xs : List Nat} {n : Nat} (h : xs.length = n) :
    xs.take n = xs := by
  subst h; exact List.take_length xs

lemma unpack_offer_of_layout (w4 w1 w2a w2b : List Nat) (h4 : w4.length = 4)
    (h1 : w1.length = 1) (h2a : w2a.length = 2) (h2b : w2b.length = 2) :
    unpack_offer_message (w4 ++ (w1 ++ (w2a ++ w2b))) =
      some (beVal w4, beVal w1, beVal w2a, beVal w2b) := by
  have hlen : (w4 ++ (w1 ++ (w2a ++ w2b))).length = 9 := by
    simp [h4, h1, h2a, h2b]
  have hd4 : (w4 ++ (w1 ++ (w2a ++ w2b))).drop 4 = w1 ++ (w2a ++ w2b) :=
    drop_of_append h4
  have hd5 : (w4 ++ (w1 ++ (w2a ++ w2b))).drop 5 = w2a ++ w2b := by
    have h := List.drop_drop 1 4 (w4 ++ (w1 ++ (w2a ++ w2b)))
    rw [hd4, drop_of_append h1] at h
    exact h.symm
  have hd7 : (w4 ++ (w1 ++ (w2a ++ w2b))).drop 7 = w2b := by
    have h := List.drop_drop 2 5 (w4 ++ (w1 ++ (w2a ++ w2b)))
    rw [hd5, drop_of_append h2a] at h
    exact h.symm
  have e1 : (w4 ++ (w1 ++ (w2a ++ w2b))).take 4 = w4 := take_of_append h4
  have e2 : ((w4 ++ (w1 ++ (w2a ++ w2b))).drop 4).take 1 = w1 := by
    rw [hd4]; exact take_of_append h1
  have e3 : ((w4 ++ (w1 ++ (w2a ++ w2b))).drop 5).take 2 = w2a := by
    rw [hd5]; exact take_of_append h2a
  have e4 : ((w4 ++ (w1 ++ (w2a ++ w2b))).drop 7).take 2 = w2b := by
    rw [hd7]; exact take_of_length h2b
  rw [unpack_offer_message, if_pos hlen, e1, e2, e3, e4]

lemma unpack_request_of_layout (w4 w1 w8 : List Nat) (h4 : w4.length = 4)
    (h1 : w1.length = 1) (h8 : w8.length = 8) :
    unpack_request_message (w4 ++ (w1 ++ w8)) =
      some (beVal w4, beVal w1, beVal w8) := by
  have hlen : (w4 ++ (w1 ++ w8)).length = 13 := by simp [h4, h1, h8]
  have hd4 : (w4 ++ (w1 ++ w8)).drop 4 = w1 ++ w8 := drop_of_append h4
  have hd5 : (w4 ++ (w1 ++ w8)).drop 5 = w8 := by
    have h := List.drop_drop 1 4 (w4 ++ (w1 ++ w8))
    rw [hd4, drop_of_append h1] at h
    exact h.symm
  have e1 : (w4 ++ (w1 ++ w8)).take 4 = w4 := take_of_append h4
  have e2 : ((w4 ++ (w1 ++ w8)).drop 4).take 1 = w1 := by
    rw [hd4]; exact take_of_append h1
  have e3 : ((w4 ++ (w1 ++ w8)).drop 5).take 8 = w8 := by
    rw [hd5]; exact take_of_length h8
  rw [unpack_request_message, if_pos hlen, e1, e2, e3]

lemma unpack_payload_of_layout (w4 w1 w8a w8b pl : List Nat)
    (h4 : w4.length = 4) (h1 : w1.length = 1) (h8a : w8a.length = 8)
    (h8b : w8b.length = 8) :
    unpack_payload_message (w4 ++ (w1 ++ (w8a ++ (w8b ++ pl)))) =
      some (beVal w4, beVal w1, beVal w8a, beVal w8b, pl) := by
  have hlen : 21 ≤ (w4 ++ (w1 ++ (w8a ++ (w8b ++ pl)))).length := by
    simp [h4, h1, h8a, h8b]; omega
  have hd4 : (w4 ++ (w1 ++ (w8a ++ (w8b ++ pl)))).drop 4 = w1 ++ (w8a ++ (w8b ++ pl)) :=
    drop_of_append h4
  have hd5 : (w4 ++ (w1 ++ (w8a ++ (w8b ++ pl)))).drop 5 = w8a ++ (w8b ++ pl) := by
    have h := List.drop_drop 1 4 (w4 ++ (w1 ++ (w8a ++ (w8b ++ pl))))
    rw [hd4, drop_of_append h1] at h
    exact h.symm
  have hd13 : (w4 ++ (w1 ++ (w8a ++ (w8b ++ pl)))).drop 13 = w8b ++ pl := by
    have h := List.drop_drop 8 5 (w4 ++ (w1 ++ (w8a ++ (w8b ++ pl))))
    rw [hd5, drop_of_append h8a] at h
    exact h.symm
  have hd21 : (w4 ++ (w1 ++ (w8a ++ (w8b ++ pl)))).drop 21 = pl := by
    have h := List.drop_drop 8 13 (w4 ++ (w1 ++ (w8a ++ (w8b ++ pl))))
    rw [hd13, drop_of_append h8b] at h
    exact h.symm
  have e1 : (w4 ++ (w1 ++ (w8a ++ (w8b ++ pl)))).take 4 = w4 := take_of_append h4
  have e2 : ((w4 ++ (w1 ++ (w8a ++ (w8b ++ pl)))).drop 4).take 1 = w1 := by
    rw [hd4]; exact take_of_append h1
  have e3 : ((w4 ++ (w1 ++ (w8a ++ (w8b ++ pl)))).drop 5).take 8 = w8a := by
    rw [hd5]; exact take_of_append h8a
  have e4 : ((w4 ++ (w1 ++ (w8a ++ (w8b ++ pl)))).drop 13).take 8 = w8b := by
    rw [hd13]; exact take_of_append h8b
  rw [unpack_payload_message, if_pos hlen, e1, e2, e3, e4, hd21]

lemma magic_cookie_lt : MAGIC_COOKIE < 256 ^ 4 := by
  rw [MAGIC_COOKIE]; norm_num

lemma offer_roundtrip (u t : Nat) (hu : u < 2 ^ 16) (ht : t < 2 ^ 16) :
    (pack_offer_message u t).bind unpack_offer_message =
      some (MAGIC_COOKIE, MSG_TYPE_OFFER, u, t) := by
  rw [pack_offer_message, if_pos ⟨hu, ht⟩, Option.some_bind,
    unpack_offer_of_layout _ _ _ _ (beBytes_length 4 _) (beBytes_length 1 _)
      (beBytes_length 2 _) (beBytes_length 2 _),
    beVal_beBytes 4 MAGIC_COOKIE magic_cookie_lt,
    beVal_beBytes 1 MSG_TYPE_OFFER (by rw [MSG_TYPE_OFFER]; norm_num),
    beVal_beBytes 2 u (by norm_num at hu ⊢; omega),
    beVal_beBytes 2 t (by norm_num at ht ⊢; omega)]

lemma request_roundtrip (fs : Int) (h0 : 0 ≤ fs) (hlt : fs < 2 ^ 64) :
    (pack_request_message fs).bind unpack_request_message =
      some (MAGIC_COOKIE, MSG_TYPE_REQUEST, fs.toNat) := by
  rw [pack_request_message, if_pos ⟨h0, hlt⟩, Option.some_bind,
    unpack_request_of_layout _ _ _ (beBytes_length 4 _) (beBytes_length 1 _)
      (beBytes_length 8 _),
    beVal_beBytes 4 MAGIC_COOKIE magic_cookie_lt,
    beVal_beBytes 1 MSG_TYPE_REQUEST (by rw [MSG_TYPE_REQUEST]; norm_num),
    beVal_beBytes 8 fs.toNat (by norm_num at hlt ⊢; omega)]

lemma payload_roundtrip (ts si : Nat) (pl : List Nat) (hts : ts < 2 ^ 64)
    (hsi : si < 2 ^ 64) :
    (pack_payload_message ts si pl).bind unpack_payload_message =
      some (MAGIC_COOKIE, MSG_TYPE_PAYLOAD, ts, si, pl) := by
  rw [pack_payload_message, if_pos ⟨hts, hsi⟩, Option.some_bind,
    unpack_payload_of_layout _ _ _ _ _ (beBytes_length 4 _) (beBytes_length 1 _)
      (beBytes_length 8 _) (beBytes_length 8 _),
    beVal_beBytes 4 MAGIC_COOKIE magic_cookie_lt,
    beVal_beBytes 1 MSG_TYPE_PAYLOAD (by rw [MSG_TYPE_PAYLOAD]; norm_num),
    beVal_beBytes 8 ts (by norm_num at hts ⊢; omega),
    beVal_beBytes 8 si (by norm_num at hsi ⊢; omega)]

/-- C1: for every message variant (Offer, Request, Payload) and every field
value representable in the declared widths, unpacking the bytes produced by
the corresponding pack function returns exactly the original field values
(together with the fixed magic cookie and message type):
decode(encode(m)) = m. -/
theorem decode_encode_roundtrip (u t : Nat) (fs : Int) (ts si : Nat)
    (pl : List Nat) (hu : u < 2 ^ 16) (ht : t < 2 ^ 16) (hfs0 : 0 ≤ fs)
    (hfs : fs < 2 ^ 64) (hts : ts < 2 ^ 64) (hsi : si < 2 ^ 64) :
    (pack_offer_message u t).bind unpack_offer_message =
        some (MAGIC_COOKIE, MSG_TYPE_OFFER, u, t) ∧
      (pack_request_message fs).bind unpack_request_message =
        some (MAGIC_COOKIE, MSG_TYPE_REQUEST, fs.toNat) ∧
      (pack_payload_message ts si pl).bind unpack_payload_message =
        some (MAGIC_COOKIE, MSG_TYPE_PAYLOAD, ts, si, pl) :=
  ⟨offer_roundtrip u t hu ht, request_roundtrip fs hfs0 hfs,
    payload_roundtrip ts si pl hts hsi⟩

/-- Witness for C1, at the boundary values of the spec: file_size 0 with an
empty payload, and file_size u64-max with a single-byte payload. -/
theorem decode_encode_roundtrip_witness :
    ((pack_offer_message 0 65535).bind unpack_offer_message =
        some (MAGIC_COOKIE, MSG_TYPE_OFFER, 0, 65535) ∧
      (pack_request_message 0).bind unpack_request_message =
        some (MAGIC_COOKIE, MSG_TYPE_REQUEST, (0 : Int).toNat) ∧
      (pack_payload_message 0 0 []).bind unpack_payload_message =
        some (MAGIC_COOKIE, MSG_TYPE_PAYLOAD, 0, 0, [])) ∧
    ((pack_offer_message 13117 5555).bind unpack_offer_message =
        some (MAGIC_COOKIE, MSG_TYPE_OFFER, 13117, 5555) ∧
      (pack_request_message (2 ^ 64 - 1)).bind unpack_request_message =
        some (MAGIC_COOKIE, MSG_TYPE_REQUEST, ((2 : Int) ^ 64 - 1).toNat) ∧
      (pack_payload_message 977 1 [97]).bind unpack_payload_message =
        some (MAGIC_COOKIE, MSG_TYPE_PAYLOAD, 977, 1, [97])) :=
  ⟨decode_encode_roundtrip 0 65535 0 0 0 [] (by norm_num) (by norm_num)
      le_rfl (by norm_num) (by norm_num) (by norm_num),
    decode_encode_roundtrip 13117 5555 (2 ^ 64 - 1) 977 1 [97] (by norm_num)
      (by norm_num) (by norm_num) (by norm_num) (by norm_num) (by norm_num)⟩

/-- C9: every encoded message has the fixed big-endian layout and length of
the wire format: an encoded Offer is exactly 9 bytes, an encoded Request
exactly 13 bytes, an encoded Payload exactly 21 + len(payload) bytes, with
the magic cookie in the 4 leading bytes, the type in the next byte, ports in
2-byte fields and sizes/segment counts/indices in 8-byte fields at the
declared offsets. -/
theorem wire_layout (u t : Nat) (fs : Int) (ts si : Nat) (pl : List Nat)
    (hu : u < 2 ^ 16) (ht : t < 2 ^ 16) (hfs0 : 0 ≤ fs) (hfs : fs < 2 ^ 64)
    (hts : ts < 2 ^ 64) (hsi : si < 2 ^ 64) :
    (∃ b, pack_offer_message u t = some b ∧ b.length = 9 ∧
      beVal (b.take 4) = MAGIC_COOKIE ∧
      beVal ((b.drop 4).take 1) = MSG_TYPE_OFFER ∧
      beVal ((b.drop 5).take 2) = u ∧ beVal ((b.drop 7).take 2) = t) ∧
    (∃ b, pack_request_message fs = some b ∧ b.length = 13 ∧
      beVal (b.take 4) = MAGIC_COOKIE ∧
      beVal ((b.drop 4).take 1) = MSG_TYPE_REQUEST ∧
      beVal ((b.drop 5).take 8) = fs.toNat) ∧
    (∃ b, pack_payload_message ts si pl = some b ∧ b.length = 21 + pl.length ∧
      beVal (b.take 4) = MAGIC_COOKIE ∧
      beVal ((b.drop 4).take 1) = MSG_TYPE_PAYLOAD ∧
      beVal ((b.drop 5).take 8) = ts ∧ beVal ((b.drop 13).take 8) = si ∧
      b.drop 21 = pl) := by
  refine ⟨?_, ?_, ?_⟩
  · have hb : pack_offer_message u t =
        some (beBytes 4 MAGIC_COOKIE ++ (beBytes 1 MSG_TYPE_OFFER ++
          (beBytes 2 u ++ beBytes 2 t))) := by
      rw [pack_offer_message, if_pos ⟨hu, ht⟩]
    refine ⟨_, hb, ?_⟩
    have hlen : (beBytes 4 MAGIC_COOKIE ++ (beBytes 1 MSG_TYPE_OFFER ++
        (beBytes 2 u ++ beBytes 2 t))).length = 9 := by
      simp [beBytes_length]
    have hun := offer_roundtrip u t hu ht
    rw [hb, Option.some_bind, unpack_offer_message, if_pos hlen] at hun
    have h1 := Option.some.inj hun
    simp only [Prod.mk.injEq] at h1
    exact ⟨hlen, h1.1, h1.2.1, h1.2.2.1, h1.2.2.2⟩
  · have hb : pack_request_message fs =
        some (beBytes 4 MAGIC_COOKIE ++ (beBytes 1 MSG_TYPE_REQUEST ++
          beBytes 8 fs.toNat)) := by
      rw [pack_request_message, if_pos ⟨hfs0, hfs⟩]
    refine ⟨_, hb, ?_⟩
    have hlen : (beBytes 4 MAGIC_COOKIE ++ (beBytes 1 MSG_TYPE_REQUEST ++
        beBytes 8 fs.toNat)).length = 13 := by
      simp [beBytes_length]
    have hun := request_roundtrip fs hfs0 hfs
    rw [hb, Option.some_bind, unpack_request_message, if_pos hlen] at hun
    have h1 := Option.some.inj hun
    simp only [Prod.mk.injEq] at h1
    exact ⟨hlen, h1.1, h1.2.1, h1.2.2⟩
  · have hb : pack_payload_message ts si pl =
        some (beBytes 4 MAGIC_COOKIE ++ (beBytes 1 MSG_TYPE_PAYLOAD ++
          (beBytes 8 ts ++ (beBytes 8 si ++ pl)))) := by
      rw [pack_payload_message, if_pos ⟨hts, hsi⟩]
    refine ⟨_, hb, ?_⟩
    have hlen : (beBytes 4 MAGIC_COOKIE ++ (beBytes 1 MSG_TYPE_PAYLOAD ++
        (beBytes 8 ts ++ (beBytes 8 si ++ pl)))).length = 21 + pl.length := by
      simp [beBytes_length]; omega
    have hge : 21 ≤ (beBytes 4 MAGIC_COOKIE ++ (beBytes 1 MSG_TYPE_PAYLOAD ++
        (beBytes 8 ts ++ (beBytes 8 si ++ pl)))).length := by
      rw [hlen]; omega
    have hun := payload_roundtrip ts si pl hts hsi
    rw [hb, Option.some_bind, unpack_payload_message, if_pos hge] at hun
    have h1 := Option.some.inj hun
    simp only [Prod.mk.injEq] at h1
    exact ⟨hlen, h1.1, h1.2.1, h1.2.2.1, h1.2.2.2.1, h1.2.2.2.2⟩

/-- Witness for C9 at concrete field values. -/
theorem wire_layout_witness :
    (∃ b, pack_offer_message 13117 5555 = some b ∧ b.length = 9 ∧
      beVal (b.take 4) = MAGIC_COOKIE ∧
      beVal ((b.drop 4).take 1) = MSG_TYPE_OFFER ∧
      beVal ((b.drop 5).take 2) = 13117 ∧ beVal ((b.drop 7).take 2) = 5555) ∧
    (∃ b, pack_request_message 1000000 = some b ∧ b.length = 13 ∧
      beVal (b.take 4) = MAGIC_COOKIE ∧
      beVal ((b.drop 4).take 1) = MSG_TYPE_REQUEST ∧
      beVal ((b.drop 5).take 8) = (1000000 : Int).toNat) ∧
    (∃ b, pack_payload_message 977 42 [97, 98] = some b ∧
      b.length = 21 + [97, 98].length ∧
      beVal (b.take 4) = MAGIC_COOKIE ∧
      beVal ((b.drop 4).take 1) = MSG_TYPE_PAYLOAD ∧
      beVal ((b.drop 5).take 8) = 977 ∧ beVal ((b.drop 13).take 8) = 42 ∧
      b.drop 21 = [97, 98]) :=
  wire_layout 13117 5555 1000000 977 42 [97, 98] (by norm_num) (by norm_num)
    (by norm_num) (by norm_num) (by norm_num) (by norm_num)

/-- C10: decoding an Offer or Request requires the buffer to have exactly
the header length, not merely at least it: any buffer strictly longer than
9 bytes (Offer) or 13 bytes (Request) is rejected, exactly as
`struct.unpack` rejects a buffer whose size differs from the format size. -/
theorem unpack_exact_length_required (b1 b2 : List Nat) (h1 : 9 < b1.length)
    (h2 : 13 < b2.length) :
    unpack_offer_message b1 = none ∧ unpack_request_message b2 = none := by
  constructor
  · rw [unpack_offer_message, if_neg (by omega)]
  · rw [unpack_request_message, if_neg (by omega)]

/-- Witness for C10: 10-byte and 14-byte all-zero buffers are rejected. -/
theorem unpack_exact_length_required_witness :
    9 < (List.replicate 10 0).length ∧ 13 < (List.replicate 14 0).length ∧
    unpack_offer_message (List.replicate 10 0) = none ∧
    unpack_request_message (List.replicate 14 0) = none :=
  ⟨by simp, by simp,
    unpack_exact_length_required (List.replicate 10 0) (List.replicate 14 0)
      (by simp) (by simp)⟩

/-- Loop state of the client's UDP receive loop in
`SpeedTestClient._udp_download`: `total_received_bytes`, `received_segments`
and the latched `total_segments` (Python `None` before the first valid
payload packet). -/
structure UdpState where
  total_received_bytes : Nat
  received_segments : Nat
  total_segments : Option Nat
deriving Repr, DecidableEq

/-- State at loop entry: zero counters, `total_segments = None`. -/
def initUdpState : UdpState := ⟨0, 0, none⟩

/-- One iteration of the receive loop on one received datagram: a datagram
that fails to decode is ignored (`continue`), a decoded packet whose cookie
or type mismatches is ignored (`continue`); otherwise `total_segments` is
latched if still `None`, `received_segments` is incremented and the payload
length is accumulated. -/
def udpStep (s : UdpState) (data : List Nat) : UdpState :=
  match unpack_payload_message data with
  | none => s
  | some (magic_cookie, msg_type, seg_count, _seg_index, payload) =>
    if magic_cookie ≠ MAGIC_COOKIE ∨ msg_type ≠ MSG_TYPE_PAYLOAD then s
    else
      { total_received_bytes := s.total_received_bytes + payload.length,
        received_segments := s.received_segments + 1,
        total_segments := some (s.total_segments.getD seg_count) }

/-- The receive loop over the whole sequence of datagrams observed before
the idle timeout. -/
def udpRun (datagrams : List (List Nat)) : UdpState :=
  datagrams.foldl udpStep initUdpState

/-- Final expected segment count:
`total_segments = total_segments if total_segments else received_segments`,
where both `None` and `0` are falsy in Python. -/
def udpFinalExpected (s : UdpState) : Nat :=
  match s.total_segments with
  | some ts => if ts = 0 then s.received_segments else ts
  | none => s.received_segments

/-- Final loss percentage: `100.0 * (1 - received_segments/total_segments)`
when the expected count is positive, `0.0` otherwise; the float division is
modelled exactly on `ℚ`. -/
def udpLossPercent (s : UdpState) : ℚ :=
  if 0 < udpFinalExpected s then
    100 * (1 - (s.received_segments : ℚ) / (udpFinalExpected s : ℚ))
  else 0

/-- Protocol validity test the loop applies to a datagram: it decodes as a
payload message and carries the protocol cookie and the payload type. -/
def isValidPayload (data : List Nat) : Bool :=
  match unpack_payload_message data with
  | none => false
  | some (magic_cookie, msg_type, _, _, _) =>
    decide (magic_cookie = MAGIC_COOKIE ∧ msg_type = MSG_TYPE_PAYLOAD)

/-- Total-segments field carried by a datagram, when it decodes. -/
def segCountOf (data : List Nat) : Option Nat :=
  (unpack_payload_message data).map (fun r => r.2.2.1)

lemma isValidPayload_iff (d : List Nat) :
    isValidPayload d = true ↔ ∃ sc si pl, unpack_payload_message d =
      some (MAGIC_COOKIE, MSG_TYPE_PAYLOAD, sc, si, pl) := by
  rw [isValidPayload]
  cases hu : unpack_payload_message d with
  | none => simp
  | some r =>
    obtain ⟨mc, mt, sc, si, pl⟩ := r
    simp only [decide_eq_true_eq]
    constructor
    · rintro ⟨rfl, rfl⟩; exact ⟨sc, si, pl, rfl⟩
    · rintro ⟨sc2, si2, pl2, h⟩
      simp only [Option.some.injEq, Prod.mk.injEq] at h
      exact ⟨h.1, h.2.1⟩

lemma udpStep_invalid (s : UdpState) (d : List Nat)
    (h : isValidPayload d = false) : udpStep s d = s := by
  rw [isValidPayload] at h
  rw [udpStep]
  cases hu : unpack_payload_message d with
  | none => rfl
  | some r =>
    obtain ⟨mc, mt, sc, si, pl⟩ := r
    rw [hu] at h
    simp only [decide_eq_false_iff_not, not_and] at h
    dsimp only
    rw [if_pos]
    by_cases hmc : mc = MAGIC_COOKIE
    · exact Or.inr (h hmc)
    · exact Or.inl hmc

lemma udpStep_valid (s : UdpState) (d : List Nat) (sc si : Nat) (pl : List Nat)
    (hu : unpack_payload_message d =
      some (MAGIC_COOKIE, MSG_TYPE_PAYLOAD, sc, si, pl)) :
    udpStep s d =
      { total_received_bytes := s.total_received_bytes + pl.length,
        received_segments := s.received_segments + 1,
        total_segments := some (s.total_segments.getD sc) } := by
  rw [udpStep, hu]
  dsimp only
  rw [if_neg]
  push_neg
  exact ⟨rfl, rfl⟩

lemma foldl_udpStep_invalid_all (s : UdpState) (ds : List (List Nat))
    (h : ∀ d ∈ ds, isValidPayload d = false) :
    List.foldl udpStep s ds = s := by
  induction ds generalizing s with
  | nil => rfl
  | cons d ds ih =>
    rw [List.foldl_cons, udpStep_invalid s d (h d (by simp))]
    exact ih s fun x hx => h x (by simp [hx])

lemma foldl_udpStep_latched (s : UdpState) (ds : List (List Nat)) (tval : Nat)
    (h : s.total_segments = some tval) :
    (List.foldl udpStep s ds).total_segments = some tval := by
  induction ds generalizing s with
  | nil => exact h
  | cons d ds ih =>
    rw [List.foldl_cons]
    apply ih
    by_cases hv : isValidPayload d = true
    · obtain ⟨sc, si, pl, hu⟩ := (isValidPayload_iff d).1 hv
      rw [udpStep_valid s d sc si pl hu]
      simp [h]
    · rw [udpStep_invalid s d (by simpa using hv)]
      exact h

lemma foldl_udpStep_received (s : UdpState) (ds : List (List Nat)) :
    (List.foldl udpStep s ds).received_segments =
      s.received_segments + ds.countP isValidPayload := by
  induction ds generalizing s with
  | nil => simp
  | cons d ds ih =>
    rw [List.foldl_cons, ih, List.countP_cons]
    by_cases hv : isValidPayload d = true
    · obtain ⟨sc, si, pl, hu⟩ := (isValidPayload_iff d).1 hv
      rw [udpStep_valid s d sc si pl hu]
      simp [hv]
      omega
    · rw [udpStep_invalid s d (by simpa using hv)]
      simp [hv]

/-- Concrete 21-byte payload datagram with the given total segment count and
segment index and an empty payload, used to exercise the receive loop on
concrete inputs. -/
def payloadDatagram (sc si : Nat) : List Nat :=
  beBytes 4 MAGIC_COOKIE ++ (beBytes 1 MSG_TYPE_PAYLOAD ++
    (beBytes 8 sc ++ beBytes 8 si))

/-- C7: for a UDP session in which no protocol-valid payload datagram is
ever received, the expected segment count falls back to the received count,
no division is performed (the guard `total_segments > 0` fails) and the
reported loss percentage is 0. -/
theorem udp_empty_transfer_zero_loss (ds : List (List Nat))
    (h : ∀ d ∈ ds, isValidPayload d = false) :
    (udpRun ds).received_segments = 0 ∧
    udpFinalExpected (udpRun ds) = (udpRun ds).received_segments ∧
    udpLossPercent (udpRun ds) = 0 := by
  have hr : udpRun ds = initUdpState := foldl_udpStep_invalid_all _ _ h
  rw [hr]
  exact ⟨rfl, rfl, rfl⟩

/-- Witness for C7: a session observing one malformed 3-byte datagram. -/
theorem udp_empty_transfer_zero_loss_witness :
    (udpRun [[1, 2, 3]]).received_segments = 0 ∧
    udpFinalExpected (udpRun [[1, 2, 3]]) =
      (udpRun [[1, 2, 3]]).received_segments ∧
    udpLossPercent (udpRun [[1, 2, 3]]) = 0 :=
  udp_empty_transfer_zero_loss [[1, 2, 3]] (by decide)

/-- C3: for every UDP session that receives at least one protocol-valid
payload datagram, the expected count is latched from the first valid
datagram's total_segments field E (later datagrams never change it), and
loss_percentage = 100 × (1 − segments_received / E). -/
theorem udp_loss_formula_latched (pre post : List (List Nat)) (d : List Nat)
    (E : Nat) (hpre : ∀ x ∈ pre, isValidPayload x = false)
    (hd : isValidPayload d = true) (hE : segCountOf d = some E)
    (hEpos : 0 < E) :
    udpFinalExpected (udpRun (pre ++ d :: post)) = E ∧
    udpLossPercent (udpRun (pre ++ d :: post)) =
      100 * (1 - ((pre ++ d :: post).countP isValidPayload : ℚ) / (E : ℚ)) := by
  obtain ⟨sc, si, pl, hu⟩ := (isValidPayload_iff d).1 hd
  have hscE : sc = E := by
    rw [segCountOf, hu] at hE
    simpa using hE
  subst hscE
  have h1 : udpRun (pre ++ d :: post) =
      List.foldl udpStep (udpStep initUdpState d) post := by
    rw [udpRun, List.foldl_append, foldl_udpStep_invalid_all _ _ hpre,
      List.foldl_cons]
  have hstep : udpStep initUdpState d =
      { total_received_bytes := pl.length, received_segments := 1,
        total_segments := some sc } := by
    rw [udpStep_valid _ _ _ _ _ hu]
    simp [initUdpState]
  have hts : (udpRun (pre ++ d :: post)).total_segments = some sc := by
    rw [h1, hstep]
    exact foldl_udpStep_latched _ _ _ rfl
  have hcount : (pre ++ d :: post).countP isValidPayload =
      1 + post.countP isValidPayload := by
    rw [List.countP_append, List.countP_cons]
    have hp0 : pre.countP isValidPayload = 0 :=
      List.countP_eq_zero.2 fun x hx => by simp [hpre x hx]
    simp [hp0, hd]
    omega
  have hrecv : (udpRun (pre ++ d :: post)).received_segments =
      1 + post.countP isValidPayload := by
    rw [h1, hstep, foldl_udpStep_received]
  have hexp : udpFinalExpected (udpRun (pre ++ d :: post)) = sc := by
    rw [udpFinalExpected, hts]
    simp only []
    rw [if_neg (by omega)]
  refine ⟨hexp, ?_⟩
  rw [udpLossPercent, hexp, if_pos hEpos, hrecv, hcount]

/-- Witness for C3: a receiver that observes segments {1, 3, 5} out of a
declared total of 5 reports a loss of 40 percent. -/
theorem udp_loss_formula_latched_witness :
    udpFinalExpected (udpRun [payloadDatagram 5 1, payloadDatagram 5 3,
      payloadDatagram 5 5]) = 5 ∧
    udpLossPercent (udpRun [payloadDatagram 5 1, payloadDatagram 5 3,
      payloadDatagram 5 5]) = 40 := by
  have h := udp_loss_formula_latched []
    [payloadDatagram 5 3, payloadDatagram 5 5] (payloadDatagram 5 1) 5
    (by simp) (by decide) (by decide) (by norm_num)
  simp only [List.nil_append] at h
  refine ⟨h.1, ?_⟩
  rw [h.2]
  have hc : ([payloadDatagram 5 1, payloadDatagram 5 3,
      payloadDatagram 5 5].countP isValidPayload) = 3 := by decide
  rw [hc]
  norm_num

/-- C8: the loss percentage is not clamped to [0, 100]: when two valid
payload datagrams arrive although the latched total_segments is 1, the raw
formula 100 × (1 − received/expected) reports a strictly negative loss. -/
theorem udp_negative_loss_unclamped :
    udpLossPercent (udpRun [payloadDatagram 1 1, payloadDatagram 1 1]) =
      -100 ∧
    udpLossPercent (udpRun [payloadDatagram 1 1, payloadDatagram 1 1]) <
      0 := by
  have h : udpRun [payloadDatagram 1 1, payloadDatagram 1 1] =
      { total_received_bytes := 0, received_segments := 2,
        total_segments := some 1 } := by decide
  rw [h]
  norm_num [udpLossPercent, udpFinalExpected]

/-- C5: a buffer shorter than a message's header size (9 bytes for Offer,
13 for Request, 21 for Payload) fails to decode rather than returning any
fields, and a datagram that is malformed or carries a mismatched cookie or
type leaves the receive loop's state unchanged and the loop continues with
the remaining datagrams. -/
theorem malformed_rejection (b1 b2 b3 d : List Nat) (s : UdpState)
    (rest : List (List Nat)) (h1 : b1.length < 9) (h2 : b2.length < 13)
    (h3 : b3.length < 21) (hd : isValidPayload d = false) :
    unpack_offer_message b1 = none ∧ unpack_request_message b2 = none ∧
    unpack_payload_message b3 = none ∧ udpStep s d = s ∧
    List.foldl udpStep s (d :: rest) = List.foldl udpStep s rest := by
  refine ⟨?_, ?_, ?_, udpStep_invalid s d hd, ?_⟩
  · rw [unpack_offer_message, if_neg (by omega)]
  · rw [unpack_request_message, if_neg (by omega)]
  · rw [unpack_payload_message, if_neg (by omega)]
  · rw [List.foldl_cons, udpStep_invalid s d hd]

/-- Witness for C5: 8-, 12- and 20-byte truncated buffers are rejected, and
a datagram with a wrong cookie is ignored by the loop. -/
theorem malformed_rejection_witness :
    unpack_offer_message (List.replicate 8 0) = none ∧
    unpack_request_message (List.replicate 12 0) = none ∧
    unpack_payload_message (List.replicate 20 0) = none ∧
    udpStep initUdpState (List.replicate 21 0) = initUdpState ∧
    List.foldl udpStep initUdpState
        [List.replicate 21 0, payloadDatagram 5 1] =
      List.foldl udpStep initUdpState [payloadDatagram 5 1] :=
  malformed_rejection (List.replicate 8 0) (List.replicate 12 0)
    (List.replicate 20 0) (List.replicate 21 0) initUdpState
    [payloadDatagram 5 1] (by simp) (by simp) (by simp) (by decide)

/-- One iteration of the send loop of `SpeedTestServer._handle_udp_client`:
`to_send = min(segment_size, requested_size - bytes_sent)` bytes of `'a'`
(0x61) are sent for the current segment index; `n` counts the remaining
iterations of `range(1, total_segments + 1)`, `seg_index` and `bytes_sent`
are the loop variables. -/
def udpBurstAux (requested segment_size : Nat) :
    Nat → Nat → Nat → List (Nat × List Nat)
  | 0, _, _ => []
  | n + 1, seg_index, bytes_sent =>
    (seg_index,
      List.replicate (min segment_size (requested - bytes_sent)) 97) ::
      udpBurstAux requested segment_size n (seg_index + 1)
        (bytes_sent + min segment_size (requested - bytes_sent))

/-- Segment count of the handler:
`total_segments = (requested_size + segment_size - 1) // segment_size`. -/
def udpTotalSegments (requested segment_size : Nat) : Nat :=
  (requested + segment_size - 1) / segment_size

/-- The full burst the handler emits for one request: each emitted payload
message as a pair of its segment index and its payload bytes, with
`segment_size = 1024` as in the handler. -/
def udpBurst (requested : Nat) : List (Nat × List Nat) :=
  udpBurstAux requested 1024 (udpTotalSegments requested 1024) 1 0

lemma udpBurstAux_closed (requested sz : Nat) :
    ∀ n k s, s + (n - 1) * sz ≤ requested →
      udpBurstAux requested sz n k s = (List.range n).map
        (fun i => (k + i, List.replicate (min sz (requested - (s + i * sz))) 97)) := by
  intro n
  induction n with
  | zero => intro k s _; rfl
  | succ n ih =>
    intro k s hs
    rw [udpBurstAux, List.range_succ_eq_map, List.map_cons, List.map_map]
    refine List.cons_eq_cons.2 ⟨by simp, ?_⟩
    cases n with
    | zero => rfl
    | succ m =>
      have hbound : s + (m + 1) * sz ≤ requested := by
        simpa using hs
      have hmin : min sz (requested - s) = sz := by
        have : sz ≤ requested - s := by
          have h1 : sz ≤ (m + 1) * sz := Nat.le_mul_of_pos_left sz (by omega)
          omega
        omega
      have hb2 : s + sz + m * sz ≤ requested := by
        have hdist : (m + 1) * sz = m * sz + sz := by ring
        omega
      rw [hmin, ih (k + 1) (s + sz) (by simpa using hb2)]
      apply List.map_congr_left
      intro i _
      have harg : s + sz + i * sz = s + (i + 1) * sz := by ring
      simp [Function.comp, harg]
      omega

lemma udpBurstAux_sum (requested sz : Nat) :
    ∀ n k s, ((udpBurstAux requested sz n k s).map
        (fun p => p.2.length)).sum = min (requested - s) (n * sz) := by
  intro n
  induction n with
  | zero => intro k s; simp [udpBurstAux]
  | succ n ih =>
    intro k s
    rw [udpBurstAux, List.map_cons, List.sum_cons, ih]
    simp only [List.length_replicate]
    have hdist : (n + 1) * sz = n * sz + sz := by ring
    omega

/-- C2: for every requested file_size with segment_size = 1024, the UDP
handler computes total_segments = ceil(file_size / 1024) and emits payload
messages whose segment indices are exactly 1..total_segments in strictly
increasing order, each carrying 1024 payload bytes except the final segment
which carries the remainder, and the payload lengths sum to file_size. -/
theorem udp_server_segmentation (requested : Nat) :
    (udpBurst requested).map Prod.fst =
        List.range' 1 (udpTotalSegments requested 1024) ∧
    ((udpBurst requested).map Prod.fst).Pairwise (· < ·) ∧
    (udpBurst requested).map (fun p => p.2.length) =
        (if requested = 0 then [] else
          List.replicate (udpTotalSegments requested 1024 - 1) 1024 ++
            [requested - (udpTotalSegments requested 1024 - 1) * 1024]) ∧
    ((udpBurst requested).map (fun p => p.2.length)).sum = requested := by
  have htdef : udpTotalSegments requested 1024 =
      (requested + 1024 - 1) / 1024 := rfl
  have hbound : 0 + (udpTotalSegments requested 1024 - 1) * 1024 ≤
      requested := by
    omega
  have hub : requested ≤ udpTotalSegments requested 1024 * 1024 := by
    omega
  have hclosed := udpBurstAux_closed requested 1024
    (udpTotalSegments requested 1024) 1 0 hbound
  have h1 : (udpBurst requested).map Prod.fst =
      List.range' 1 (udpTotalSegments requested 1024) := by
    rw [udpBurst, hclosed, List.map_map, List.range'_eq_map_range]
    apply List.map_congr_left
    intro i _
    rfl
  refine ⟨h1, ?_, ?_, ?_⟩
  · rw [h1]
    exact List.pairwise_lt_range' 1 (udpTotalSegments requested 1024)
  · have h3 : (udpBurst requested).map (fun p => p.2.length) =
        (List.range (udpTotalSegments requested 1024)).map
          (fun i => min 1024 (requested - i * 1024)) := by
      rw [udpBurst, hclosed, List.map_map]
      apply List.map_congr_left
      intro i _
      simp [Function.comp]
    rw [h3]
    by_cases h0 : requested = 0
    · have ht0 : udpTotalSegments requested 1024 = 0 := by omega
      rw [if_pos h0, ht0]
      rfl
    · rw [if_neg h0]
      obtain ⟨T, hT⟩ : ∃ T, udpTotalSegments requested 1024 = T + 1 :=
        ⟨udpTotalSegments requested 1024 - 1, by omega⟩
      rw [hT] at hub hbound ⊢
      rw [List.range_succ, List.map_append, List.map_singleton]
      have hlast : min 1024 (requested - T * 1024) = requested - T * 1024 := by
        have hd : (T + 1) * 1024 = T * 1024 + 1024 := by ring
        omega
      have hfull : (List.range T).map (fun i => min 1024 (requested - i * 1024)) =
          List.replicate T 1024 := by
        apply List.eq_replicate_iff.2
        refine ⟨by simp, ?_⟩
        intro b hb
        simp only [List.mem_map, List.mem_range] at hb
        obtain ⟨i, hi, rfl⟩ := hb
        have h2 : (i + 1) * 1024 ≤ T * 1024 :=
          Nat.mul_le_mul_right _ (by omega)
        have h3 : (i + 1) * 1024 = i * 1024 + 1024 := by ring
        simp only [Nat.add_sub_cancel] at hbound
        omega
      rw [hfull, hlast]
      simp only [Nat.add_sub_cancel]
  · have h4 := udpBurstAux_sum requested 1024
      (udpTotalSegments requested 1024) 1 0
    rw [udpBurst, h4]
    omega

/-- Chunk sizes sent by the send loop of `SpeedTestServer._handle_tcp_client`:
`while bytes_sent < requested_size: to_send = min(chunk_size, requested_size -
bytes_sent)` with `chunk_size = 4096`, each chunk sent in full by `sendall`.
The requested size is the parsed ASCII decimal, so possibly negative. -/
def tcpServerChunks (requested bytes_sent : Int) : List Int :=
  if _h : bytes_sent < requested then
    min 4096 (requested - bytes_sent) ::
      tcpServerChunks requested (bytes_sent + min 4096 (requested - bytes_sent))
  else []
termination_by (requested - bytes_sent).toNat
decreasing_by omega

/-- Final `bytes_sent` of the server's TCP send loop. -/
def tcpServerBytesSent (requested : Int) : Int :=
  (tcpServerChunks requested 0).sum

/-- Receive loop of `SpeedTestClient._tcp_download`: `while total_received <
requested_file_size: data = recv(4096); if not data: break;
total_received += len(data)`.  The stream is the list of chunk lengths the
successive `recv` calls deliver; list exhaustion or a zero-length chunk is
the peer closing the connection. -/
def tcpClientRecv (requested : Int) : List Nat → Nat → Nat
  | [], total_received => total_received
  | c :: rest, total_received =>
    if (total_received : Int) < requested then
      if c = 0 then total_received
      else tcpClientRecv requested rest (total_received + c)
    else total_received

/-- Bitrate computation of `_tcp_download`: a non-positive elapsed time is
replaced by the epsilon `0.000001`, then `8 * total_received / elapsed`;
the float arithmetic is modelled exactly on `ℚ`. -/
def tcpSpeedBps (total_received : Nat) (elapsed : ℚ) : ℚ :=
  8 * total_received / (if elapsed ≤ 0 then 1 / 1000000 else elapsed)

lemma tcpServerChunks_sum (requested : Int) :
    ∀ fuel : Nat, ∀ s : Int, (requested - s).toNat ≤ fuel →
      s + (tcpServerChunks requested s).sum = max requested s := by
  intro fuel
  induction fuel with
  | zero =>
    intro s hs
    rw [tcpServerChunks, dif_neg (by omega)]
    simp
    omega
  | succ fuel ih =>
    intro s hs
    by_cases h : s < requested
    · rw [tcpServerChunks, dif_pos h, List.sum_cons]
      have hrec := ih (s + min 4096 (requested - s)) (by omega)
      omega
    · rw [tcpServerChunks, dif_neg h]
      simp
      omega

lemma tcpClientRecv_bound (requested : Int) :
    ∀ chunks : List Nat, ∀ total : Nat, (∀ c ∈ chunks, c ≤ 4096) →
      tcpClientRecv requested chunks total = total ∨
      (tcpClientRecv requested chunks total : Int) < requested + 4096 := by
  intro chunks
  induction chunks with
  | nil => intro total _; exact Or.inl rfl
  | cons c cs ih =>
    intro total hc
    rw [tcpClientRecv]
    by_cases hlt : (total : Int) < requested
    · rw [if_pos hlt]
      by_cases hc0 : c = 0
      · rw [if_pos hc0]; exact Or.inl rfl
      · rw [if_neg hc0]
        rcases ih (total + c) (fun x hx => hc x (by simp [hx])) with h | h
        · right
          rw [h]
          have hcb := hc c (by simp)
          push_cast
          omega
        · exact Or.inr h
    · rw [if_neg hlt]; exact Or.inl rfl

/-- C4 counterexample: the claim that the client records at most the
requested size for every possible sequence of delivered chunk sizes fails:
with requested_file_size = 10 and a single delivered 4096-byte chunk (the
`recv(4096)` bound), the loop exits with total_received = 4096 > 10,
because the loop checks the condition before each receive. -/
theorem tcp_client_overshoot_counterexample :
    tcpClientRecv 10 [4096] 0 = 4096 ∧ ¬(tcpClientRecv 10 [4096] 0 ≤ 10) := by
  constructor
  · decide
  · decide

/-- C4 (amended): for every nonnegative parsed requested size the server's
final bytes_sent equals the requested size exactly, and the client's
total_received at loop exit, while it can exceed the requested size, stays
strictly below requested + 4096 for every sequence of chunk sizes bounded
by the 4096-byte receive buffer. -/
theorem tcp_byte_counts_amended (requested : Int) (chunks : List Nat)
    (hreq : 0 ≤ requested) (hch : ∀ c ∈ chunks, c ≤ 4096) :
    tcpServerBytesSent requested = requested ∧
    (tcpClientRecv requested chunks 0 : Int) < requested + 4096 := by
  constructor
  · rw [tcpServerBytesSent]
    have h := tcpServerChunks_sum requested (requested - 0).toNat 0 le_rfl
    omega
  · rcases tcpClientRecv_bound requested chunks 0 hch with h | h
    · rw [h]; omega
    · exact h

/-- Witness for the amended C4 at requested = 10 with one full chunk. -/
theorem tcp_byte_counts_amended_witness :
    tcpServerBytesSent 10 = 10 ∧
    (tcpClientRecv 10 [4096] 0 : Int) < 10 + 4096 :=
  tcp_byte_counts_amended 10 [4096] (by norm_num) (by simp)

/-- C6: a TCP session with requested size 0 receives 0 bytes and computes
the finite bitrate 0, and a UDP request for file size 0 packs fine; but for
a negative requested size `pack_request_message` fails (`struct.error`
raised in `_udp_download` before any receive, outside any handler), so the
UDP client session does not complete normally: the guard for non-positive
sizes the spec demands is absent. -/
theorem pack_request_negative_fails :
    pack_request_message (-1) = none ∧
    pack_request_message 0 ≠ none ∧
    tcpClientRecv 0 [] 0 = 0 ∧
    tcpSpeedBps 0 0 = 0 := by
  refine ⟨?_, ?_, rfl, ?_⟩
  · rw [pack_request_message, if_neg (by norm_num)]
  · rw [pack_request_message, if_pos (by norm_num)]
    simp
  · rw [tcpSpeedBps]
    norm_num

end ByteTheNet
